import Mathlib

/-!
Verification of the ChessTutorV2 game move-quality analysis pipeline.

The definitions below are a shallow embedding of the TypeScript source:

* `classifyMove`, `signedDelta`, `commentOf`, `extractEval`, `bestMoveUci`,
  `analyzeStep`, `analyzeFrom`, `analyzeGame` embed the `analyzeGame`
  function of `src/components/GameAnalysisPanel.tsx` (lines 29-123).
* `keyMoments` embeds the key-moment selection of `getGameSummary`
  (lines 148-153 of the same file).
* `parseInfoTokens`, `handleStockfishMessage`, `processMessages` embed
  `handleStockfishMessage` of `src/components/ChessAITutor.tsx`
  (lines 97-119).

Modelling conventions:

* The external chess-rules oracle (chess.js) is abstracted as a
  `RulesOracle` (the spec places the rules engine out of scope, at its
  boundary); `Chess.move` returning `null` for an illegal move is
  modelled by `Option`.
* A `fetch` + `response.json()` pair is one call
  `String → Except Unit CloudEval`; a thrown network/parse error is
  `Except.error`.
* JavaScript `Math.round(d / 100)` on an integer `d` is
  `(d + 50) / 100` with Lean's floor-convention integer division
  (for the magnitudes involved the float division is exact at every
  half-integer boundary, so this is the exact semantics).
* A Stockfish message is modelled already split on spaces
  (`message.split(' ')` in the source); `String.includes` then
  coincides with token membership for the protocol words involved, and
  `parseInt` on the engine's well-formed numerals is `String.toInt?`
  (with the NaN case collapsed to 0; no claim depends on it).
* JavaScript `Array.prototype.sort` (stable since ES2019) is
  `List.mergeSort`, which is also stable.
-/

namespace ChessTutor

/-- Embeds the `classification` union type of `GameAnalysis` in
`GameAnalysisPanel.tsx`. -/
inductive Classification where
  | brilliant
  | great
  | good
  | inaccuracy
  | mistake
  | blunder
  | book
deriving DecidableEq, Repr

/-- Embeds one principal variation of the lichess cloud-eval JSON payload:
`cp` and `mate` are each optional fields, `moves` is the space-separated
move list. -/
structure Pv where
  cp : Option Int
  mate : Option Int
  moves : String
deriving DecidableEq, Repr

/-- Embeds the lichess cloud-eval JSON payload: the `pvs` array may be
absent on an error response. -/
structure CloudEval where
  pvs : Option (List Pv)
deriving DecidableEq, Repr

/-- Embeds `data.pvs?.[0]?.cp || 0` (GameAnalysisPanel.tsx lines 49 and 66):
the centipawn field of the first variation, defaulting to 0 when the
array or the field is missing (JS `||` also maps an explicit `cp: 0`
to 0, which agrees with `getD 0`). The `mate` field is never read here. -/
def extractEval (data : CloudEval) : Int :=
  ((data.pvs.bind List.head?).bind Pv.cp).getD 0

/-- Embeds `data.pvs?.[0]?.moves.split(' ')[0]` (line 50): the first move
of the first variation, `none` when the optional chain short-circuits. -/
def bestMoveUci (data : CloudEval) : Option String :=
  (data.pvs.bind List.head?).map (fun pv => (pv.moves.splitOn " ").headD "")

/-- Embeds line 69-70: `perspective = moveResult.color === 'w' ? 1 : -1`
and `evalChange = (evalAfter - evalBefore) * perspective`. -/
def signedDelta (evalBefore evalAfter : Int) (moverIsWhite : Bool) : Int :=
  (evalAfter - evalBefore) * (if moverIsWhite then 1 else -1)

/-- Embeds the classifier chain of lines 73-88: an exact engine-best match
is `brilliant`, otherwise descending thresholds on `evalChange`, first
match wins.  `best?` is `none` when the response carried no variation
(JS `undefined === actualMoveUci` is false). -/
def classifyMove (best? : Option String) (actualUci : String) (evalChange : Int) :
    Classification :=
  if best? = some actualUci then .brilliant
  else if evalChange ≥ -10 then .great
  else if evalChange ≥ -40 then .good
  else if evalChange ≥ -100 then .inaccuracy
  else if evalChange ≥ -200 then .mistake
  else .blunder

/-- Embeds line 96: the optional comment
``evalChange < -100 ? `Lost ${Math.abs(Math.round(evalChange / 100))} pawns of advantage` : undefined``.
`Math.round(evalChange / 100)` rounds half toward positive infinity,
which on integers is `(evalChange + 50) / 100` in floor convention. -/
def commentOf (evalChange : Int) : Option String :=
  if evalChange < -100 then
    some ("Lost " ++ toString ((evalChange + 50) / 100).natAbs ++ " pawns of advantage")
  else
    none

/-- Embeds the chess.js move-result object as used by `analyzeGame`:
`color` (`"w"` or `"b"`), `from`, `to`, and the optional `promotion`. -/
structure MoveResult where
  color : String
  fromSq : String
  toSq : String
  promotion : Option String
deriving DecidableEq, Repr

/-- Embeds line 74: `moveResult.from + moveResult.to + (moveResult.promotion || '')`. -/
def MoveResult.uci (mr : MoveResult) : String :=
  mr.fromSq ++ mr.toSq ++ mr.promotion.getD ""

/-- Embeds one record of the `analysisResults` array (the `GameAnalysis`
interface of GameAnalysisPanel.tsx lines 7-14). -/
structure GameAnalysis where
  moveNumber : Nat
  move : String
  fen : String
  evaluation : Int
  classification : Classification
  comment : Option String
deriving DecidableEq, Repr

/-- The external chess-rules oracle (chess.js), abstracted at its
boundary: `fen` serializes a position, `move` applies a SAN move and
returns `none` exactly where `Chess.move` returns `null` (illegal move). -/
structure RulesOracle (Pos : Type) where
  fen : Pos → String
  move : Pos → String → Option (Pos × MoveResult)

/-- The mutable state of the `analyzeGame` loop: the replay game's
position, its move history (`replayGame.history({verbose: true})`), and
the accumulated `analysisResults`. -/
structure AnalysisState (Pos : Type) where
  pos : Pos
  hist : List MoveResult
  results : List GameAnalysis

/-- Embeds one iteration of the `analyzeGame` loop body
(GameAnalysisPanel.tsx lines 36-116) for ply `i` and SAN move `moveSan`:

* the before-position fetch throwing lands in the catch block, which
  pushes a degraded record (score 0, tier `good`, no comment) only when
  `replayGame.history().pop()` yields a move, i.e. when the history is
  nonempty — the pending move has not been applied in this case;
* an illegal move (`moveResult` falsy) logs and `continue`s: state
  unchanged;
* the after-position fetch throwing lands in the catch block with the
  move already applied, so a degraded record for this ply is pushed;
* on success the record carries `moveNumber = Math.floor(i/2)+1`, the
  after-FEN, the after-evaluation, the classifier's tier and the
  optional comment. -/
def analyzeStep {Pos : Type} (O : RulesOracle Pos)
    (fetch : String → Except Unit CloudEval)
    (st : AnalysisState Pos) (i : Nat) (moveSan : String) : AnalysisState Pos :=
  match fetch (O.fen st.pos) with
  | .error _ =>
      match st.hist.getLast? with
      | some _ =>
          { st with results :=
              st.results ++ [⟨i / 2 + 1, moveSan, O.fen st.pos, 0, .good, none⟩] }
      | none => st
  | .ok data =>
      match O.move st.pos moveSan with
      | none => st
      | some (pos2, mr) =>
          let fenAfter := O.fen pos2
          match fetch fenAfter with
          | .error _ =>
              ⟨pos2, st.hist ++ [mr],
                st.results ++ [⟨i / 2 + 1, moveSan, fenAfter, 0, .good, none⟩]⟩
          | .ok dataAfter =>
              let evalBefore := extractEval data
              let evalAfter := extractEval dataAfter
              let evalChange := signedDelta evalBefore evalAfter (mr.color = "w")
              let cls := classifyMove (bestMoveUci data) mr.uci evalChange
              ⟨pos2, st.hist ++ [mr],
                st.results ++
                  [⟨i / 2 + 1, moveSan, fenAfter, evalAfter, cls, commentOf evalChange⟩]⟩

/-- Runs the `analyzeGame` loop from state `st` and ply index `i` over the
remaining moves. -/
def analyzeFrom {Pos : Type} (O : RulesOracle Pos)
    (fetch : String → Except Unit CloudEval) :
    AnalysisState Pos → Nat → List String → AnalysisState Pos
  | st, _, [] => st
  | st, i, m :: ms => analyzeFrom O fetch (analyzeStep O fetch st i m) (i + 1) ms

/-- Embeds `analyzeGame` (lines 29-123): replay the move list from the
initial position, producing the `analysisResults` array. -/
def analyzeGame {Pos : Type} (O : RulesOracle Pos)
    (fetch : String → Except Unit CloudEval) (init : Pos)
    (moves : List String) : List GameAnalysis :=
  (analyzeFrom O fetch ⟨init, [], []⟩ 0 moves).results

/-- Embeds `['mistake', 'blunder', 'brilliant'].includes(a.classification)`
(GameAnalysisPanel.tsx line 150). -/
def isKeyTier (c : Classification) : Bool :=
  c = .mistake ∨ c = .blunder ∨ c = .brilliant

/-- Embeds the key-moment selection of `getGameSummary` (lines 149-151):
`analysisData.filter(...).slice(0, 5)`. -/
def keyMoments (l : List GameAnalysis) : List GameAnalysis :=
  (l.filter (fun a => isKeyTier a.classification)).take 5

/-- Embeds the `StockfishMove` interface of `ChessAITutor.tsx`. -/
structure StockfishMove where
  move : String
  score : Int
  depth : Int
deriving DecidableEq, Repr

/-- Helper for `jsParseInt`: the value of a decimal digit character,
`none` for a non-digit. -/
def charDigit (c : Char) : Option Nat :=
  if 48 ≤ c.toNat ∧ c.toNat ≤ 57 then some (c.toNat - 48) else none

/-- Helper for `jsParseInt`: the numeric value of the longest digit
run starting the character list, `none` when there is no leading digit
(the `parseInt` NaN case). -/
def parseNatValue (cs : List Char) : Option Nat :=
  match cs.takeWhile (fun c => (charDigit c).isSome) with
  | [] => none
  | ds => some (ds.foldl (fun acc c => acc * 10 + ((charDigit c).getD 0)) 0)

/-- Models `parseInt` on the engine's numeral tokens: an optional leading
minus sign followed by leading decimal digits (a NaN result, which no
claim exercises, is collapsed to 0). -/
def jsParseInt (s : String) : Int :=
  match s.data with
  | '-' :: cs => ((parseNatValue cs).map (fun n => -(n : Int))).getD 0
  | cs => ((parseNatValue cs).map (fun n => (n : Int))).getD 0

/-- Embeds the extraction part of `handleStockfishMessage`
(ChessAITutor.tsx lines 99-108) on the space-split token list: requires
the `info` and `pv` words, the token after `pv` is the move, the token
after `cp` (or, failing that, `mate`) is the score, the token after
`depth` is the depth (0 if absent).  Returns `none` when the line is not
an info line. -/
def parseInfoTokens (parts : List String) : Option (String × Int × Int) :=
  if parts.contains "info" && parts.contains "pv" then
    match List.indexOf? "pv" parts, List.indexOf? "cp" parts <|> List.indexOf? "mate" parts with
    | some pvIndex, some scoreIndex =>
        some (parts.getD (pvIndex + 1) "",
              jsParseInt (parts.getD (scoreIndex + 1) ""),
              match List.indexOf? "depth" parts with
              | some di => jsParseInt (parts.getD (di + 1) "")
              | none => 0)
    | _, _ => none
  else none

/-- Embeds `sort((a, b) => b.score - a.score)` (line 113): the stable
sort placing larger scores first (JS `Array.prototype.sort` is stable;
insertion sort with this non-strict relation computes exactly the stable
descending order, ties keeping their original relative position). -/
def sortByScoreDesc (l : List StockfishMove) : List StockfishMove :=
  l.insertionSort (fun a b => b.score ≤ a.score)

/-- Embeds the state-update part of `handleStockfishMessage` (lines
110-116): if the move is already recorded the list is unchanged;
otherwise, while fewer than five entries are held, the new entry is
appended and the list re-sorted by score descending. -/
def handleStockfishMessage (prev : List StockfishMove) (parts : List String) :
    List StockfishMove :=
  match parseInfoTokens parts with
  | none => prev
  | some (move, score, depth) =>
      match prev.find? (fun m => m.move == move) with
      | some _ => prev
      | none =>
          if prev.length < 5 then sortByScoreDesc (prev ++ [⟨move, score, depth⟩])
          else prev

/-- Folds `handleStockfishMessage` over a message sequence starting from
the initial empty `topMoves` state. -/
def processMessages (msgs : List (List String)) : List StockfishMove :=
  msgs.foldl handleStockfishMessage []

/-! Concrete instantiations of the abstract collaborators, used to
evaluate the pipeline on explicit inputs. -/

/-- A toy position for the rules oracle: the list of moves played so far. -/
def toyFen (p : List String) : String :=
  String.intercalate " " p

/-- A toy rules oracle move function that rejects the move `"bad"` as
illegal and accepts everything else, alternating mover colors. -/
def toyMove (p : List String) (m : String) :
    Option (List String × MoveResult) :=
  if m = "bad" then none
  else some (p ++ [m], ⟨if p.length % 2 = 0 then "w" else "b", m, "", none⟩)

/-- A toy rules oracle move function that accepts every move. -/
def toyMoveTotal (p : List String) (m : String) :
    Option (List String × MoveResult) :=
  some (p ++ [m], ⟨if p.length % 2 = 0 then "w" else "b", m, "", none⟩)

/-- Toy rules oracle rejecting exactly the move `"bad"`. -/
def toyRules : RulesOracle (List String) :=
  ⟨toyFen, toyMove⟩

/-- Toy rules oracle accepting every move. -/
def toyRulesTotal : RulesOracle (List String) :=
  ⟨toyFen, toyMoveTotal⟩

/-- A fixed successful cloud-eval payload: centipawns 0, best move `"zz"`. -/
def okEval : CloudEval :=
  ⟨some [⟨some 0, none, "zz"⟩]⟩

/-- An evaluation backend that succeeds on every request with `okEval`. -/
def okFetch : String → Except Unit CloudEval :=
  fun _ => .ok okEval

/-- An evaluation backend that fails (throws) on every request. -/
def failFetch : String → Except Unit CloudEval :=
  fun _ => .error ()

/-! Theorems settling the claims. -/

/-- Modelled from the spec: the tiering table of section 4.4, descending
thresholds on `signedDelta`, evaluated top-down, first match wins.
Written from the spec's words to be compared against `classifyMove`. -/
def specTierOfDelta (d : Int) : Classification :=
  if d ≥ -10 then .great
  else if d ≥ -40 then .good
  else if d ≥ -100 then .inaccuracy
  else if d ≥ -200 then .mistake
  else .blunder

/-- C1: for every pair of evaluations and mover color, when the played
move differs from the engine-best move, the assigned tier is exactly the
spec's threshold table applied to
`signedDelta = (evalAfter - evalBefore) * (mover = White ? 1 : -1)`,
thresholds checked top-down with inclusive boundaries. -/
theorem classify_matches_spec_thresholds (evalBefore evalAfter : Int)
    (moverIsWhite : Bool) (best actual : String) (h : best ≠ actual) :
    classifyMove (some best) actual (signedDelta evalBefore evalAfter moverIsWhite)
      = specTierOfDelta (signedDelta evalBefore evalAfter moverIsWhite) := by
  simp [classifyMove, specTierOfDelta, h]

/-- Witness for `classify_matches_spec_thresholds`: at the boundary,
`signedDelta = -10` yields `great` and `signedDelta = -11` yields `good`. -/
theorem classify_matches_spec_thresholds_witness :
    classifyMove (some "d2d4") "g1f3" (signedDelta 0 (-10) true)
        = Classification.great ∧
    classifyMove (some "d2d4") "g1f3" (signedDelta 0 (-11) true)
        = Classification.good := by
  constructor
  · exact (classify_matches_spec_thresholds 0 (-10) true "d2d4" "g1f3"
      (by decide)).trans (by decide)
  · exact (classify_matches_spec_thresholds 0 (-11) true "d2d4" "g1f3"
      (by decide)).trans (by decide)

/-- C4: whenever the actual move equals the engine-best move, the
classifier assigns `brilliant`, regardless of the value or sign of the
signed delta. -/
theorem best_match_always_brilliant (evalBefore evalAfter : Int)
    (moverIsWhite : Bool) (m : String) :
    classifyMove (some m) m (signedDelta evalBefore evalAfter moverIsWhite)
      = Classification.brilliant := by
  simp [classifyMove]

/-- C3 counterexample: an evaluation carrying only a mate-in-3 indicator
is extracted as 0 centipawns, not as the claimed `sign * (100000 - 3)`
for either sign. -/
theorem mate_score_not_converted :
    extractEval ⟨some [⟨none, some 3, "f7f8"⟩]⟩ = 0 ∧
    (100000 - 3 : Int) ≠ 0 ∧ (-(100000 - 3) : Int) ≠ 0 := by
  refine ⟨rfl, by decide, by decide⟩

/-- C3 amended: the pipeline ignores mate indicators entirely — the
extraction reads only the `cp` field of the first variation, so an
evaluation whose first variation has no `cp` (in particular a mate score)
contributes 0, and a present `cp` is returned unchanged. -/
theorem mate_field_ignored_cp_only (mate : Option Int) (mv : String)
    (rest : List Pv) :
    extractEval ⟨some (⟨none, mate, mv⟩ :: rest)⟩ = 0 ∧
    ∀ cp : Int, extractEval ⟨some (⟨some cp, mate, mv⟩ :: rest)⟩ = cp := by
  constructor
  · simp [extractEval]
  · intro cp
    simp [extractEval]

/-- C5 counterexample: at `signedDelta = -250` the comment reads
`"Lost 2 pawns of advantage"`, not the claimed `"Lost 3 pawns of
advantage"` (JS `Math.round(-2.5)` is `-2`, half toward positive
infinity, and the absolute value is taken afterwards). -/
theorem rounding_at_minus_250 :
    commentOf (-250) = some "Lost 2 pawns of advantage" ∧
    commentOf (-250) ≠ some "Lost 3 pawns of advantage" := by
  refine ⟨rfl, by decide⟩

/-- C5 amended: for `signedDelta < -100` the comment is
`"Lost N pawns of advantage"` with `N = (|signedDelta| + 49) / 100`
(the absolute value of JS `Math.round(signedDelta / 100)`, which rounds
halves toward positive infinity, so `-250` gives `N = 2`); for
`signedDelta ≥ -100` there is no comment. -/
theorem comment_threshold_and_value (d : Int) :
    (d < -100 →
      commentOf d
        = some ("Lost " ++ toString ((d.natAbs + 49) / 100) ++ " pawns of advantage")) ∧
    (-100 ≤ d → commentOf d = none) := by
  constructor
  · intro h
    simp only [commentOf, if_pos h]
    exact congrArg
      (fun n => some ("Lost " ++ toString n ++ " pawns of advantage"))
      (by omega)
  · intro h
    simp only [commentOf]
    rw [if_neg (by omega)]

/-- Witness for `comment_threshold_and_value` at `signedDelta = -250`. -/
theorem comment_threshold_witness :
    commentOf (-250)
      = some ("Lost " ++ toString ((Int.natAbs (-250) + 49) / 100) ++ " pawns of advantage") :=
  (comment_threshold_and_value (-250)).1 (by decide)

/-- C8: `keyMoments` is a sublist of the record list (relative order
preserved), has length `min 5 (number of key-tier records)` (so never
more than five), contains only records whose tier is `mistake`,
`blunder` or `brilliant`, and is an initial segment of the key-tier
records in ply order. -/
theorem keyMoments_first_five_key_records (l : List GameAnalysis) :
    (keyMoments l).Sublist l ∧
    (keyMoments l).length = min 5 (l.filter (fun a => isKeyTier a.classification)).length ∧
    (∀ r ∈ keyMoments l, isKeyTier r.classification) ∧
    keyMoments l <+: l.filter (fun a => isKeyTier a.classification) := by
  refine ⟨?_, ?_, ?_, ?_⟩
  · exact (List.take_sublist 5 _).trans (List.filter_sublist l)
  · simp [keyMoments]
  · intro r hr
    have hmem : r ∈ l.filter (fun a => isKeyTier a.classification) :=
      (List.take_sublist 5 _).subset hr
    exact (List.mem_filter.mp hmem).2
  · unfold keyMoments
    exact List.take_prefix 5 (l.filter (fun a => isKeyTier a.classification))

/-- Witness for `keyMoments_first_five_key_records`: on a concrete
two-record list, the blunder record is a key moment and its tier is a
key tier. -/
theorem keyMoments_first_five_key_records_witness :
    isKeyTier (GameAnalysis.classification
      ⟨2, "Qh5", "fen2", -250, .blunder, none⟩) = true :=
  (keyMoments_first_five_key_records
      [⟨1, "e4", "fen1", 0, .good, none⟩,
       ⟨2, "Qh5", "fen2", -250, .blunder, none⟩]).2.2.1
    ⟨2, "Qh5", "fen2", -250, .blunder, none⟩ (by decide)

/-- C2: with a backend that fails on every request, the run produces an
empty report: the before-move fetch failure is caught before the move is
ever applied, the replay history stays empty, and the catch block's
history guard skips the degraded record — so for one input move the
report has 0 records, not 1. -/
theorem always_failing_backend_empty_report :
    analyzeGame toyRules failFetch [] ["e4"] = [] ∧
    (["e4"] : List String).length = 1 := by
  exact ⟨rfl, rfl⟩

/-- C7 counterexample: with the recorded moves `["bad", "ok"]` where the
oracle rejects `"bad"` as illegal, the run does not stop at the illegal
ply: the later move `"ok"` is still processed and produces a record, so
the result is not the (empty) list of records of the earlier plies. -/
theorem illegal_move_does_not_stop_run :
    (analyzeGame toyRules okFetch [] ["bad", "ok"]).map GameAnalysis.move
      = ["ok"] ∧
    (["ok"] : List String) ≠ ([] : List String) := by
  refine ⟨rfl, by decide⟩

/-- C7 amended: when the rules oracle rejects the move of the current ply
(and the before-position evaluation succeeded), that ply is skipped with
the state unchanged — no record is produced for it — and the run
continues with the remaining moves against the same position; no
truncation flag exists. -/
theorem illegal_move_skipped_run_continues {Pos : Type}
    (O : RulesOracle Pos) (fetch : String → Except Unit CloudEval)
    (st : AnalysisState Pos) (i : Nat) (m : String) (ms : List String)
    (d : CloudEval) (hf : fetch (O.fen st.pos) = .ok d)
    (hm : O.move st.pos m = none) :
    analyzeFrom O fetch st i (m :: ms) = analyzeFrom O fetch st (i + 1) ms := by
  show analyzeFrom O fetch (analyzeStep O fetch st i m) (i + 1) ms
      = analyzeFrom O fetch st (i + 1) ms
  have hstep : analyzeStep O fetch st i m = st := by
    simp [analyzeStep, hf, hm]
  rw [hstep]

/-- Witness for `illegal_move_skipped_run_continues` on the toy oracle:
the illegal first move `"bad"` is skipped and the loop proceeds to the
remaining moves with the state unchanged. -/
theorem illegal_move_skipped_witness :
    analyzeFrom toyRules okFetch ⟨[], [], []⟩ 0 ["bad", "ok"]
      = analyzeFrom toyRules okFetch ⟨[], [], []⟩ 1 ["ok"] :=
  illegal_move_skipped_run_continues toyRules okFetch ⟨[], [], []⟩ 0 "bad" ["ok"]
    okEval rfl rfl

/-- Helper: on a success iteration (before fetch ok, move legal, after
fetch ok), the loop body appends exactly one record, and its
`moveNumber` is `i / 2 + 1`. -/
theorem analyzeStep_success_numbers {Pos : Type}
    (O : RulesOracle Pos) (fetch : String → Except Unit CloudEval)
    (st : AnalysisState Pos) (i : Nat) (m : String)
    (d : CloudEval) (hf : fetch (O.fen st.pos) = .ok d)
    (pos2 : Pos) (mr : MoveResult) (hm : O.move st.pos m = some (pos2, mr))
    (d2 : CloudEval) (hf2 : fetch (O.fen pos2) = .ok d2) :
    (analyzeStep O fetch st i m).results.map GameAnalysis.moveNumber
      = st.results.map GameAnalysis.moveNumber ++ [i / 2 + 1] := by
  simp [analyzeStep, hf, hm, hf2]

/-- Helper: shifts the ply index out of a range-map of move numbers. -/
theorem range_map_moveNumber_succ (n i : Nat) :
    (List.range (n + 1)).map (fun k => (i + k) / 2 + 1)
      = (i / 2 + 1) :: (List.range n).map (fun k => (i + 1 + k) / 2 + 1) := by
  rw [List.range_succ_eq_map, List.map_cons, List.map_map]
  refine congrArg₂ List.cons (by omega) (List.map_congr_left ?_)
  intro a _
  show (i + Nat.succ a) / 2 + 1 = (i + 1 + a) / 2 + 1
  omega

/-- Helper: under a total rules oracle and an always-successful backend,
the loop appends one record per remaining move and the `moveNumber` of
the record for ply `i + k` is `(i + k) / 2 + 1`. -/
theorem analyzeFrom_moveNumbers {Pos : Type}
    (O : RulesOracle Pos) (fetch : String → Except Unit CloudEval)
    (hm : ∀ p m, (O.move p m).isSome)
    (hf : ∀ s, ∃ d, fetch s = .ok d)
    (ms : List String) :
    ∀ (st : AnalysisState Pos) (i : Nat),
      (analyzeFrom O fetch st i ms).results.map GameAnalysis.moveNumber
        = st.results.map GameAnalysis.moveNumber
          ++ (List.range ms.length).map (fun k => (i + k) / 2 + 1) := by
  induction ms with
  | nil =>
      intro st i
      simp [analyzeFrom]
  | cons m ms ih =>
      intro st i
      obtain ⟨d, hd⟩ := hf (O.fen st.pos)
      obtain ⟨pm, hpm⟩ := Option.isSome_iff_exists.mp (hm st.pos m)
      obtain ⟨pos2, mr⟩ := pm
      obtain ⟨d2, hd2⟩ := hf (O.fen pos2)
      have hstep := analyzeStep_success_numbers O fetch st i m d hd pos2 mr hpm d2 hd2
      have hrec : analyzeFrom O fetch st i (m :: ms)
          = analyzeFrom O fetch (analyzeStep O fetch st i m) (i + 1) ms := rfl
      rw [hrec, ih (analyzeStep O fetch st i m) (i + 1), hstep]
      rw [List.append_assoc]
      congr 1
      rw [List.length_cons, range_map_moveNumber_succ]
      rfl


/-- C9 counterexample: for a two-move game with every move legal and
every evaluation successful, the records carry `moveNumber` values
`[1, 1]` (the 1-based full-move number, repeated for the two plies of a
move pair), not the claimed 0-based strictly increasing indices `[0, 1]`. -/
theorem record_numbering_not_zero_based :
    (analyzeGame toyRulesTotal okFetch [] ["a", "b"]).map GameAnalysis.moveNumber
      = [1, 1] ∧
    ([1, 1] : List Nat) ≠ [0, 1] := by
  refine ⟨rfl, by decide⟩

/-- C9 amended: for a game whose moves are all accepted by the oracle and
whose evaluations all succeed, the report has exactly one record per
input move, and the record produced for ply `i` carries
`moveNumber = i / 2 + 1` — the 1-based full-move number, which is
non-decreasing and repeats for move pairs, not a 0-based contiguous
index. -/
theorem full_success_one_record_per_move {Pos : Type}
    (O : RulesOracle Pos) (fetch : String → Except Unit CloudEval)
    (init : Pos) (moves : List String)
    (hm : ∀ p m, (O.move p m).isSome)
    (hf : ∀ s, ∃ d, fetch s = .ok d) :
    (analyzeGame O fetch init moves).length = moves.length ∧
    (analyzeGame O fetch init moves).map GameAnalysis.moveNumber
      = (List.range moves.length).map (fun k => k / 2 + 1) := by
  have h := analyzeFrom_moveNumbers O fetch hm hf moves ⟨init, [], []⟩ 0
  have h2 : (analyzeGame O fetch init moves).map GameAnalysis.moveNumber
      = (List.range moves.length).map (fun k => k / 2 + 1) := by
    simpa [analyzeGame] using h
  refine ⟨?_, h2⟩
  have h3 := congrArg List.length h2
  simpa using h3

/-- Witness for `full_success_one_record_per_move`: on a three-move game
over the total toy oracle with an always-successful backend, the report
has three records with move numbers `[1, 1, 2]`. -/
theorem full_success_one_record_per_move_witness :
    (analyzeGame toyRulesTotal okFetch [] ["a", "b", "c"]).length = 3 ∧
    (analyzeGame toyRulesTotal okFetch [] ["a", "b", "c"]).map GameAnalysis.moveNumber
      = [1, 1, 2] := by
  have h := full_success_one_record_per_move toyRulesTotal okFetch [] ["a", "b", "c"]
    (fun p m => rfl) (fun s => ⟨okEval, rfl⟩)
  exact ⟨h.1.trans (by decide), h.2.trans (by decide)⟩

/-- Helper: the sort used by the Stockfish handler returns a permutation
of its input. -/
theorem sortByScoreDesc_perm (l : List StockfishMove) :
    (sortByScoreDesc l).Perm l := by
  unfold sortByScoreDesc
  exact List.perm_insertionSort (fun a b => b.score ≤ a.score) l

/-- Helper: the sort used by the Stockfish handler sorts by score, larger
scores first. -/
theorem sortByScoreDesc_sorted (l : List StockfishMove) :
    (sortByScoreDesc l).Pairwise (fun a b => b.score ≤ a.score) := by
  have htotal : IsTotal StockfishMove (fun a b => b.score ≤ a.score) :=
    ⟨fun a b => le_total b.score a.score⟩
  have htrans : IsTrans StockfishMove (fun a b => b.score ≤ a.score) :=
    ⟨fun a b c h1 h2 => le_trans h2 h1⟩
  exact @List.sorted_insertionSort StockfishMove
    (fun a b => b.score ≤ a.score) (fun a b => Int.decLe b.score a.score)
    htotal htrans l

/-- Helper: each Stockfish message either leaves the accumulated list
unchanged, or (when the extracted move is new and fewer than five entries
are held) re-sorts the list with the new entry appended. -/
theorem handle_eq_or (prev : List StockfishMove) (parts : List String) :
    handleStockfishMessage prev parts = prev ∨
    ∃ entry : StockfishMove,
      entry.move ∉ prev.map StockfishMove.move ∧
      prev.length < 5 ∧
      handleStockfishMessage prev parts = sortByScoreDesc (prev ++ [entry]) := by
  cases hp : parseInfoTokens parts with
  | none =>
      left
      simp [handleStockfishMessage, hp]
  | some t =>
      obtain ⟨mv, s, dp⟩ := t
      cases hfind : prev.find? (fun m => m.move == mv) with
      | some y =>
          left
          simp [handleStockfishMessage, hp, hfind]
      | none =>
          by_cases hlen : prev.length < 5
          · refine Or.inr ⟨⟨mv, s, dp⟩, ?_, hlen, ?_⟩
            · intro hmem
              obtain ⟨a, ha, hamv⟩ := List.mem_map.mp hmem
              have hfa := List.find?_eq_none.mp hfind a ha
              simp [hamv] at hfa
            · simp [handleStockfishMessage, hp, hfind, hlen]
          · left
            simp [handleStockfishMessage, hp, hfind, hlen]

/-- Helper: a Stockfish message whose extracted move is already recorded
leaves the accumulated list unchanged (first write wins). -/
theorem handle_existing_move_unchanged (prev : List StockfishMove)
    (parts : List String) (m : StockfishMove) (hmem : m ∈ prev)
    (s d : Int) (hp : parseInfoTokens parts = some (m.move, s, d)) :
    handleStockfishMessage prev parts = prev := by
  have hsome : (prev.find? (fun x => x.move == m.move)).isSome :=
    List.find?_isSome.mpr ⟨m, hmem, by simp⟩
  obtain ⟨y, hy⟩ := Option.isSome_iff_exists.mp hsome
  simp [handleStockfishMessage, hp, hy]

/-- Helper: the three `topMoves` invariants — at most five entries,
pairwise-distinct move strings, scores non-increasing. -/
def topMovesInv (l : List StockfishMove) : Prop :=
  l.length ≤ 5 ∧
  l.Pairwise (fun a b => a.move ≠ b.move) ∧
  l.Pairwise (fun a b => b.score ≤ a.score)

/-- Helper: one Stockfish message preserves the `topMoves` invariants. -/
theorem handle_preserves_inv (prev : List StockfishMove)
    (parts : List String) (h : topMovesInv prev) :
    topMovesInv (handleStockfishMessage prev parts) := by
  obtain ⟨h5, hd, hs⟩ := h
  rcases handle_eq_or prev parts with heq | ⟨entry, hfresh, hlen, heq⟩
  · rw [heq]
    exact ⟨h5, hd, hs⟩
  · rw [heq]
    have hperm : (sortByScoreDesc (prev ++ [entry])).Perm (prev ++ [entry]) :=
      sortByScoreDesc_perm (prev ++ [entry])
    refine ⟨?_, ?_, sortByScoreDesc_sorted (prev ++ [entry])⟩
    · rw [hperm.length_eq]
      simp only [List.length_append, List.length_singleton]
      omega
    · have happ : (prev ++ [entry]).Pairwise (fun a b => a.move ≠ b.move) := by
        rw [List.pairwise_append]
        refine ⟨hd, List.pairwise_singleton _ _, ?_⟩
        intro a ha b hb
        rw [List.mem_singleton] at hb
        subst hb
        intro hcontra
        exact hfresh (List.mem_map.mpr ⟨a, ha, hcontra⟩)
      exact (List.Perm.pairwise_iff (fun hxy => Ne.symm hxy) hperm).mpr happ

/-- Helper: the `topMoves` invariants hold along any fold of
`handleStockfishMessage`. -/
theorem foldl_preserves_inv :
    ∀ (msgs : List (List String)) (l : List StockfishMove),
      topMovesInv l → topMovesInv (msgs.foldl handleStockfishMessage l)
  | [], _, h => h
  | m :: ms, l, h =>
      foldl_preserves_inv ms (handleStockfishMessage l m) (handle_preserves_inv l m h)

/-- C10: starting from the empty list, after any sequence of engine
messages the accumulated top-move list has at most five entries, at most
one entry per distinct move string (a later message whose move is
already recorded leaves the list unchanged), and is sorted with scores
non-increasing. -/
theorem topMoves_invariants (msgs : List (List String)) :
    (processMessages msgs).length ≤ 5 ∧
    (processMessages msgs).Pairwise (fun a b => a.move ≠ b.move) ∧
    (processMessages msgs).Pairwise (fun a b => b.score ≤ a.score) ∧
    (∀ (parts : List String) (m : StockfishMove) (s d : Int),
      m ∈ processMessages msgs → parseInfoTokens parts = some (m.move, s, d) →
      handleStockfishMessage (processMessages msgs) parts = processMessages msgs) := by
  have h := foldl_preserves_inv msgs [] ⟨by simp, List.Pairwise.nil, List.Pairwise.nil⟩
  exact ⟨h.1, h.2.1, h.2.2,
    fun parts m s d hmem hp =>
      handle_existing_move_unchanged (processMessages msgs) parts m hmem s d hp⟩

/-- Witness for `topMoves_invariants` (its last conjunct carries
hypotheses): after one `e2e4` info line, a second info line for the same
move leaves the accumulated list unchanged. -/
theorem topMoves_invariants_witness :
    handleStockfishMessage
        (processMessages [["info", "depth", "10", "score", "cp", "50", "pv", "e2e4"]])
        ["info", "depth", "12", "score", "cp", "99", "pv", "e2e4"]
      = processMessages [["info", "depth", "10", "score", "cp", "50", "pv", "e2e4"]] :=
  (topMoves_invariants [["info", "depth", "10", "score", "cp", "50", "pv", "e2e4"]]).2.2.2
    ["info", "depth", "12", "score", "cp", "99", "pv", "e2e4"]
    ⟨"e2e4", 50, 10⟩ 99 12 (by decide) (by decide)

/-- C6 counterexample: feeding a rank-2 info line (`multipv 2`, move
`d2d4`, cp 100) and then a rank-1 info line (`multipv 1`, move `e2e4`,
cp 50) yields the moves ordered `["d2d4", "e2e4"]` — by score
descending — not the claimed rank-ascending order `["e2e4", "d2d4"]`. -/
theorem rank_lines_not_rank_ordered :
    (processMessages
        [["info", "depth", "20", "multipv", "2", "score", "cp", "100", "pv", "d2d4"],
         ["info", "depth", "20", "multipv", "1", "score", "cp", "50", "pv", "e2e4"]]).map
        StockfishMove.move
      = ["d2d4", "e2e4"] ∧
    (["d2d4", "e2e4"] : List String) ≠ ["e2e4", "d2d4"] := by
  refine ⟨by decide, by decide⟩

/-- C6 amended: the handler retains at most one line per distinct move
string with first write wins — a newer info line whose move is already
recorded leaves the state unchanged, rather than superseding it — rank
(`multipv`) indices are never consulted, and whenever a new line is
retained the whole list is re-sorted by score descending, so the
completed result is ordered by score descending, not by rank ascending. -/
theorem info_lines_first_write_wins (prev : List StockfishMove)
    (parts : List String) :
    (∀ m ∈ prev, ∀ s d : Int, parseInfoTokens parts = some (m.move, s, d) →
        handleStockfishMessage prev parts = prev) ∧
    (handleStockfishMessage prev parts = prev ∨
      (handleStockfishMessage prev parts).Pairwise (fun a b => b.score ≤ a.score)) := by
  constructor
  · intro m hmem s d hp
    exact handle_existing_move_unchanged prev parts m hmem s d hp
  · rcases handle_eq_or prev parts with heq | ⟨entry, _, _, heq⟩
    · exact Or.inl heq
    · rw [heq]
      exact Or.inr (sortByScoreDesc_sorted (prev ++ [entry]))

/-- Witness for `info_lines_first_write_wins`: a second info line for the
already-recorded move `e2e4` (with a different score) leaves the list
unchanged. -/
theorem info_lines_first_write_wins_witness :
    handleStockfishMessage [⟨"e2e4", 50, 10⟩]
        ["info", "depth", "12", "score", "cp", "99", "pv", "e2e4"]
      = [⟨"e2e4", 50, 10⟩] :=
  (info_lines_first_write_wins [⟨"e2e4", 50, 10⟩]
      ["info", "depth", "12", "score", "cp", "99", "pv", "e2e4"]).1
    ⟨"e2e4", 50, 10⟩ (by decide) 99 12 (by decide)

end ChessTutor
